import Mathlib

/-!
Verification development for the prega-operator-analyzer repository.

The Go source is shallowly embedded: Go strings are modelled as Lean
`String` (operated on through their underlying `List Char`, which matches
the byte-level Go operations on the ASCII inputs the claims concern),
`encoding/json` decoding is modelled by an executable JSON parser,
Go maps are modelled as association lists (insertion-ordered, which is a
deterministic refinement of Go's unspecified map iteration order), and
`time.Time` values are modelled by their formatted representation, since
the code only ever formats them.
-/

namespace PregaAnalyzer

/-- Character constants used by the embedding (double quote, backslash,
open brace, close brace), written via code points. -/
def quoteC : Char := Char.ofNat 34

def backslashC : Char := Char.ofNat 92

def openBraceC : Char := Char.ofNat 123

def closeBraceC : Char := Char.ofNat 125

/-- Whitespace predicate used by `strings.TrimSpace` (restricted to the
ASCII whitespace characters, which is what the analyzed documents use). -/
def isSpaceC (c : Char) : Bool :=
  c = ' ' || c = Char.ofNat 9 || c = Char.ofNat 10 || c = Char.ofNat 13 ||
  c = Char.ofNat 11 || c = Char.ofNat 12

/-- Model of Go `strings.TrimSpace` on the underlying character list. -/
def trimChars (l : List Char) : List Char :=
  ((l.dropWhile isSpaceC).reverse.dropWhile isSpaceC).reverse

/-- Model of Go `strings.Split(s, "\n")`: split into lines, keeping empty
parts, on the underlying character list. -/
def splitLinesAux (acc : List Char) : List Char → List (List Char)
  | [] => [acc.reverse]
  | c :: cs =>
    if c = Char.ofNat 10 then acc.reverse :: splitLinesAux [] cs
    else splitLinesAux (c :: acc) cs

def splitLines (l : List Char) : List (List Char) :=
  splitLinesAux [] l

/-- First index (in characters) at which `pat` occurs in `s`, mirroring Go
`strings.Index` (byte offsets and character offsets agree on ASCII input). -/
def indexOfSub (s pat : List Char) : Option Nat :=
  match s with
  | [] => if pat.isEmpty then some 0 else none
  | _ :: cs =>
    if pat.isPrefixOf s then some 0
    else match indexOfSub cs pat with
         | some n => some (n + 1)
         | none => none

/-- Model of Go `strings.Contains`. -/
def containsSub (s pat : List Char) : Bool :=
  (indexOfSub s pat).isSome

/-- Model of Go `strings.HasPrefix` on strings. -/
def hasPrefixS (s pat : String) : Bool :=
  pat.data.isPrefixOf s.data

/-- JSON values as decoded by `encoding/json`.  Numbers keep their source
lexeme: no claim of this development inspects a numeric value. -/
inductive Json where
  | null : Json
  | bool (b : Bool) : Json
  | num (lexeme : String) : Json
  | str (s : String) : Json
  | arr (elems : List Json) : Json
  | obj (fields : List (String × Json)) : Json

/-- JSON structural whitespace. -/
def isJsonWs (c : Char) : Bool :=
  c = ' ' || c = Char.ofNat 9 || c = Char.ofNat 10 || c = Char.ofNat 13

def skipWs (cs : List Char) : List Char :=
  cs.dropWhile isJsonWs

def isHexDigit (c : Char) : Bool :=
  (c.toNat ≥ 48 && c.toNat ≤ 57) || (c.toNat ≥ 97 && c.toNat ≤ 102) ||
  (c.toNat ≥ 65 && c.toNat ≤ 70)

def hexVal (c : Char) : Nat :=
  if c.toNat ≥ 48 && c.toNat ≤ 57 then c.toNat - 48
  else if c.toNat ≥ 97 && c.toNat ≤ 102 then c.toNat - 87
  else c.toNat - 55

/-- Parse the body of a JSON string literal (the opening quote already
consumed), returning the decoded characters and the rest of the input. -/
def parseStringBody (fuel : Nat) (cs : List Char) : Option (List Char × List Char) :=
  match fuel with
  | 0 => none
  | fuel + 1 =>
    match cs with
    | [] => none
    | c :: rest =>
      if c = quoteC then some ([], rest)
      else if c = backslashC then
        match rest with
        | [] => none
        | e :: rest2 =>
          if e = quoteC || e = backslashC || e = '/' then
            match parseStringBody fuel rest2 with
            | some (out, rem) => some (e :: out, rem)
            | none => none
          else if e = 'b' then
            match parseStringBody fuel rest2 with
            | some (out, rem) => some (Char.ofNat 8 :: out, rem)
            | none => none
          else if e = 'f' then
            match parseStringBody fuel rest2 with
            | some (out, rem) => some (Char.ofNat 12 :: out, rem)
            | none => none
          else if e = 'n' then
            match parseStringBody fuel rest2 with
            | some (out, rem) => some (Char.ofNat 10 :: out, rem)
            | none => none
          else if e = 'r' then
            match parseStringBody fuel rest2 with
            | some (out, rem) => some (Char.ofNat 13 :: out, rem)
            | none => none
          else if e = 't' then
            match parseStringBody fuel rest2 with
            | some (out, rem) => some (Char.ofNat 9 :: out, rem)
            | none => none
          else if e = 'u' then
            match rest2 with
            | h1 :: h2 :: h3 :: h4 :: rest3 =>
              if isHexDigit h1 && isHexDigit h2 && isHexDigit h3 && isHexDigit h4 then
                let code := ((hexVal h1 * 16 + hexVal h2) * 16 + hexVal h3) * 16 + hexVal h4
                match parseStringBody fuel rest3 with
                | some (out, rem) => some (Char.ofNat code :: out, rem)
                | none => none
              else none
            | _ => none
          else none
      else
        match parseStringBody fuel rest with
        | some (out, rem) => some (c :: out, rem)
        | none => none

def isDigitC (c : Char) : Bool :=
  c.toNat ≥ 48 && c.toNat ≤ 57

def isNumChar (c : Char) : Bool :=
  isDigitC c || c = '-' || c = '+' || c = '.' || c = 'e' || c = 'E'

/-- Parse a JSON number lexeme (validated loosely: it must be nonempty and
start with a digit or a minus sign; the claims never inspect numbers). -/
def parseNumber (cs : List Char) : Option (List Char × List Char) :=
  let lexeme := cs.takeWhile isNumChar
  let rest := cs.dropWhile isNumChar
  match lexeme with
  | [] => none
  | c :: _ => if isDigitC c || c = '-' then some (lexeme, rest) else none

mutual

/-- Recursive-descent JSON value parser (fuel-indexed so that every
definition is structurally recursive and kernel-evaluable). -/
def parseValue (fuel : Nat) (cs : List Char) : Option (Json × List Char) :=
  match fuel with
  | 0 => none
  | fuel + 1 =>
    match skipWs cs with
    | [] => none
    | c :: rest =>
      if c = quoteC then
        match parseStringBody fuel rest with
        | some (out, rem) => some (.str (String.mk out), rem)
        | none => none
      else if c = openBraceC then
        match skipWs rest with
        | [] => none
        | d :: rest2 =>
          if d = closeBraceC then some (.obj [], rest2)
          else parseMembers fuel (d :: rest2)
      else if c = '[' then
        match skipWs rest with
        | [] => none
        | d :: rest2 =>
          if d = ']' then some (.arr [], rest2)
          else parseElements fuel (d :: rest2)
      else if c = 't' then
        if [Char.ofNat 114, Char.ofNat 117, Char.ofNat 101].isPrefixOf rest then
          some (.bool true, rest.drop 3)
        else none
      else if c = 'f' then
        if [Char.ofNat 97, Char.ofNat 108, Char.ofNat 115, Char.ofNat 101].isPrefixOf rest then
          some (.bool false, rest.drop 4)
        else none
      else if c = 'n' then
        if [Char.ofNat 117, Char.ofNat 108, Char.ofNat 108].isPrefixOf rest then
          some (.null, rest.drop 3)
        else none
      else
        match parseNumber (c :: rest) with
        | some (lexeme, rem) => some (.num (String.mk lexeme), rem)
        | none => none

/-- Parse the members of a JSON object after at least one member is known
to follow (the opening brace already consumed). -/
def parseMembers (fuel : Nat) (cs : List Char) : Option (Json × List Char) :=
  match fuel with
  | 0 => none
  | fuel + 1 =>
    match skipWs cs with
    | [] => none
    | c :: rest =>
      if c = quoteC then
        match parseStringBody fuel rest with
        | some (key, rem) =>
          match skipWs rem with
          | ':' :: rem2 =>
            match parseValue fuel rem2 with
            | some (v, rem3) =>
              match skipWs rem3 with
              | ',' :: rem4 =>
                match parseMembers fuel rem4 with
                | some (.obj fields, rem5) => some (.obj ((String.mk key, v) :: fields), rem5)
                | _ => none
              | e :: rem4 =>
                if e = closeBraceC then some (.obj [(String.mk key, v)], rem4) else none
              | [] => none
            | none => none
          | _ => none
        | none => none
      else none

/-- Parse the elements of a JSON array after at least one element is known
to follow (the opening bracket already consumed). -/
def parseElements (fuel : Nat) (cs : List Char) : Option (Json × List Char) :=
  match fuel with
  | 0 => none
  | fuel + 1 =>
    match parseValue fuel cs with
    | some (v, rem) =>
      match skipWs rem with
      | ',' :: rem2 =>
        match parseElements fuel rem2 with
        | some (.arr elems, rem3) => some (.arr (v :: elems), rem3)
        | _ => none
      | ']' :: rem2 => some (.arr [v], rem2)
      | _ => none
    | none => none

end

/-- Model of `encoding/json` top-level parsing: one JSON value followed by
only whitespace. -/
def parseTop (cs : List Char) : Option Json :=
  match parseValue (cs.length + 1) cs with
  | some (v, rem) => if (skipWs rem).isEmpty then some v else none
  | none => none

/-! Embedding of `pkg/errors.go`.  The `Context`, `Timestamp` and wrapped
`Err` fields of `AnalyzerError` are omitted: no claim inspects them, and
they never influence control flow. -/

/-- The `ErrorType` constants of `pkg/errors.go`. -/
inductive ErrorType where
  | network
  | git
  | parsing
  | fileSystem
  | validation
  | timeout
  | unknown
deriving DecidableEq

/-- The `AnalyzerError` struct of `pkg/errors.go`, restricted to the fields
the claims are about (`Type`, called `errorType` here because `Type` is
reserved in Lean, and `Message`). -/
structure AnalyzerError where
  errorType : ErrorType
  Message : String
deriving DecidableEq

/-- Embedding of `(*AnalyzerError).IsRetryable` from `pkg/errors.go`. -/
def AnalyzerError.IsRetryable (e : AnalyzerError) : Bool :=
  match e.errorType with
  | .network => true
  | .timeout => true
  | .git => e.Message = ("failed to clone repository") || e.Message = ("failed to fetch")
  | _ => false

/-- Embedding of `(*AnalyzerError).GetRetryDelay` from `pkg/errors.go`,
returning the delay in seconds (the Go code returns `5s`, `10s`, `3s`, `0`). -/
def AnalyzerError.GetRetryDelay (e : AnalyzerError) : Nat :=
  match e.errorType with
  | .network => 5
  | .timeout => 10
  | .git => 3
  | _ => 0

/-- A Go `error` value reaching `HandleWithRetry`: either a typed
`*AnalyzerError` or some other raw error (identified by its message). -/
inductive GoError where
  | analyzer (e : AnalyzerError)
  | raw (msg : String)
deriving DecidableEq

/-- The classification step of `HandleWithRetry` (`pkg/errors.go` lines
125-131): typed errors are used as-is, raw errors are wrapped as `Unknown`
with message "Unknown error occurred". -/
def classifyError : GoError → AnalyzerError
  | .analyzer ae => ae
  | .raw _ => AnalyzerError.mk .unknown ("Unknown error occurred")

/-- Loop of `(*ErrorHandler).HandleWithRetry` (`pkg/errors.go` lines
113-142).  `operation i` is the outcome of the `i`-th invocation of the
closure (`none` = success).  `remaining` is `MaxRetries - attempt`, so
`remaining = 0` exactly when `attempt == eh.MaxRetries`, the condition
under which the Go loop breaks even for a retryable error.  Returns the
final result together with the number of invocations performed.  The
`time.Sleep` and logging calls have no bearing on the result and are not
modelled. -/
def handleWithRetryAux (operation : Nat → Option GoError) :
    Nat → Nat → Option GoError × Nat
  | remaining, attempt =>
    match operation attempt with
    | none => (none, attempt + 1)
    | some e =>
      match remaining with
      | 0 => (some e, attempt + 1)
      | r + 1 =>
        if (classifyError e).IsRetryable then handleWithRetryAux operation r (attempt + 1)
        else (some e, attempt + 1)

/-- Embedding of `(*ErrorHandler).HandleWithRetry`: run the loop from
attempt 0 with `MaxRetries` retries remaining.  The first component is the
returned error (`none` for a `nil` return, otherwise exactly `lastErr`);
the second component is the number of times `operation` was invoked. -/
def HandleWithRetry (maxRetries : Nat) (operation : Nat → Option GoError) :
    Option GoError × Nat :=
  handleWithRetryAux operation maxRetries 0

/-! Embedding of `pkg/parser.go`.  `ParseOperatorIndex` is modelled from
the file contents onward: the `os.Stat` / `os.Open` / `io.ReadAll` steps
(whose failures produce `FileSystem` errors) only feed the content in, and
no claim is about them. -/

/-- A decoded Go `map[string]interface{}`: an association list of the JSON
object's fields.  Lookups take the last binding of a key, matching the
overwrite semantics with which `encoding/json` builds the map. -/
def GoMap := List (String × Json)

/-- Look a key up in a decoded map (last binding wins, as in a Go map
built by successive assignment). -/
def mapGet (m : GoMap) (k : String) : Option Json :=
  m.foldl (fun acc p => if p.1 = k then some p.2 else acc) none

/-- Model of `json.Unmarshal(data, &entry)` for
`entry map[string]interface{}`: the input must be a single JSON object
(`null` also succeeds, leaving the map nil, hence no fields). -/
def unmarshalMapChars (cs : List Char) : Option GoMap :=
  match parseTop cs with
  | some (.obj fs) => some fs
  | some .null => some []
  | _ => none

/-- The `Property` struct of `pkg/parser.go` (`Value interface{}` is kept
as the raw decoded JSON; a missing or null value is `Json.null`, on which
the map type assertion in the Go code fails, as here). -/
structure Property where
  type : String := ""
  value : Json := .null

/-- The `Entry` struct of `pkg/parser.go`. -/
structure Entry where
  name : String := ""
  replaces : String := ""
  skips : List String := []
  skipRange : String := ""
  properties : List Property := []

/-- The `Channel` struct of `pkg/parser.go`. -/
structure Channel where
  name : String := ""
  currentCSV : String := ""
  entries : List Entry := []

/-- The `Package` struct of `pkg/parser.go`. -/
structure Package where
  schema : String := ""
  name : String := ""
  defaultChannel : String := ""
  description : String := ""
  icon : Json := .null
  channels : List Channel := []

/-- The `OperatorIndex` struct of `pkg/parser.go`. -/
structure OperatorIndex where
  schema : String := ""
  image : String := ""
  relatedImages : Json := .null
  properties : Json := .null
  packages : List Package := []

/-- ASCII lower-casing, used for the case-insensitive field matching of
`encoding/json` (the analyzed documents only use ASCII keys). -/
def lowerC (c : Char) : Char :=
  if c.toNat ≥ 65 && c.toNat ≤ 90 then Char.ofNat (c.toNat + 32) else c

/-- Does a JSON object key match a struct field tag, per `encoding/json`
(exact match or case-insensitive match)? -/
def keyMatches (k tag : String) : Bool :=
  k = tag || k.data.map lowerC = tag.data.map lowerC

/-- Decode a JSON value into a Go `string` field holding `cur`
(`null` leaves the current value, anything but a string is an error). -/
def decodeStringInto (cur : String) : Json → Option String
  | .str s => some s
  | .null => some cur
  | _ => none

/-- Decode a JSON array's elements into `[]string`. -/
def decodeStringElems : List Json → Option (List String)
  | [] => some []
  | j :: js =>
    match decodeStringInto ("") j, decodeStringElems js with
    | some s, some ss => some (s :: ss)
    | _, _ => none

/-- Decode a JSON value into a `[]string` field. -/
def decodeStringListInto (cur : List String) : Json → Option (List String)
  | .null => some cur
  | .arr xs => decodeStringElems xs
  | _ => none

/-- Decode one field assignment into a `Property`. -/
def decodePropertyField (st : Property) (k : String) (v : Json) : Option Property :=
  if keyMatches k ("type") then
    match decodeStringInto st.type v with
    | some s => some { st with type := s }
    | none => none
  else if keyMatches k ("value") then
    some { st with value := v }
  else some st

/-- Decode a JSON value into a `Property`. -/
def decodePropertyInto (cur : Property) : Json → Option Property
  | .null => some cur
  | .obj fs =>
    fs.foldl (fun acc p =>
      match acc with
      | some st => decodePropertyField st p.1 p.2
      | none => none) (some cur)
  | _ => none

/-- Decode a JSON array's elements into `[]Property`. -/
def decodePropertyElems : List Json → Option (List Property)
  | [] => some []
  | j :: js =>
    match decodePropertyInto {} j, decodePropertyElems js with
    | some x, some xs => some (x :: xs)
    | _, _ => none

/-- Decode one field assignment into an `Entry`. -/
def decodeEntryField (st : Entry) (k : String) (v : Json) : Option Entry :=
  if keyMatches k ("name") then
    match decodeStringInto st.name v with
    | some s => some { st with name := s }
    | none => none
  else if keyMatches k ("replaces") then
    match decodeStringInto st.replaces v with
    | some s => some { st with replaces := s }
    | none => none
  else if keyMatches k ("skips") then
    match decodeStringListInto st.skips v with
    | some ss => some { st with skips := ss }
    | none => none
  else if keyMatches k ("skipRange") then
    match decodeStringInto st.skipRange v with
    | some s => some { st with skipRange := s }
    | none => none
  else if keyMatches k ("properties") then
    match v with
    | .null => some st
    | .arr xs =>
      match decodePropertyElems xs with
      | some ps => some { st with properties := ps }
      | none => none
    | _ => none
  else some st

/-- Decode a JSON value into an `Entry`. -/
def decodeEntryInto (cur : Entry) : Json → Option Entry
  | .null => some cur
  | .obj fs =>
    fs.foldl (fun acc p =>
      match acc with
      | some st => decodeEntryField st p.1 p.2
      | none => none) (some cur)
  | _ => none

/-- Decode a JSON array's elements into `[]Entry`. -/
def decodeEntryElems : List Json → Option (List Entry)
  | [] => some []
  | j :: js =>
    match decodeEntryInto {} j, decodeEntryElems js with
    | some x, some xs => some (x :: xs)
    | _, _ => none

/-- Decode one field assignment into a `Channel`. -/
def decodeChannelField (st : Channel) (k : String) (v : Json) : Option Channel :=
  if keyMatches k ("name") then
    match decodeStringInto st.name v with
    | some s => some { st with name := s }
    | none => none
  else if keyMatches k ("currentCSV") then
    match decodeStringInto st.currentCSV v with
    | some s => some { st with currentCSV := s }
    | none => none
  else if keyMatches k ("entries") then
    match v with
    | .null => some st
    | .arr xs =>
      match decodeEntryElems xs with
      | some es => some { st with entries := es }
      | none => none
    | _ => none
  else some st

/-- Decode a JSON value into a `Channel`. -/
def decodeChannelInto (cur : Channel) : Json → Option Channel
  | .null => some cur
  | .obj fs =>
    fs.foldl (fun acc p =>
      match acc with
      | some st => decodeChannelField st p.1 p.2
      | none => none) (some cur)
  | _ => none

/-- Decode a JSON array's elements into `[]Channel`. -/
def decodeChannelElems : List Json → Option (List Channel)
  | [] => some []
  | j :: js =>
    match decodeChannelInto {} j, decodeChannelElems js with
    | some x, some xs => some (x :: xs)
    | _, _ => none

/-- Decode one field assignment into a `Package`. -/
def decodePackageField (st : Package) (k : String) (v : Json) : Option Package :=
  if keyMatches k ("schema") then
    match decodeStringInto st.schema v with
    | some s => some { st with schema := s }
    | none => none
  else if keyMatches k ("name") then
    match decodeStringInto st.name v with
    | some s => some { st with name := s }
    | none => none
  else if keyMatches k ("defaultChannel") then
    match decodeStringInto st.defaultChannel v with
    | some s => some { st with defaultChannel := s }
    | none => none
  else if keyMatches k ("description") then
    match decodeStringInto st.description v with
    | some s => some { st with description := s }
    | none => none
  else if keyMatches k ("icon") then
    some { st with icon := v }
  else if keyMatches k ("channels") then
    match v with
    | .null => some st
    | .arr xs =>
      match decodeChannelElems xs with
      | some chs => some { st with channels := chs }
      | none => none
    | _ => none
  else some st

/-- Decode a JSON value into a `Package`. -/
def decodePackageInto (cur : Package) : Json → Option Package
  | .null => some cur
  | .obj fs =>
    fs.foldl (fun acc p =>
      match acc with
      | some st => decodePackageField st p.1 p.2
      | none => none) (some cur)
  | _ => none

/-- Decode a JSON array's elements into `[]Package`. -/
def decodePackageElems : List Json → Option (List Package)
  | [] => some []
  | j :: js =>
    match decodePackageInto {} j, decodePackageElems js with
    | some x, some xs => some (x :: xs)
    | _, _ => none

/-- Decode one field assignment into an `OperatorIndex`. -/
def decodeIndexField (st : OperatorIndex) (k : String) (v : Json) : Option OperatorIndex :=
  if keyMatches k ("schema") then
    match decodeStringInto st.schema v with
    | some s => some { st with schema := s }
    | none => none
  else if keyMatches k ("image") then
    match decodeStringInto st.image v with
    | some s => some { st with image := s }
    | none => none
  else if keyMatches k ("relatedImages") then
    some { st with relatedImages := v }
  else if keyMatches k ("properties") then
    some { st with properties := v }
  else if keyMatches k ("packages") then
    match v with
    | .null => some st
    | .arr xs =>
      match decodePackageElems xs with
      | some ps => some { st with packages := ps }
      | none => none
    | _ => none
  else some st

/-- Model of `json.Unmarshal(content, &index)` for `index OperatorIndex`. -/
def decodeOperatorIndex (cs : List Char) : Option OperatorIndex :=
  match parseTop cs with
  | some .null => some {}
  | some (.obj fs) =>
    fs.foldl (fun acc p =>
      match acc with
      | some st => decodeIndexField st p.1 p.2
      | none => none) (some ({} : OperatorIndex))
  | _ => none

/-- Model of `json.Marshal` for `Property`. -/
def marshalProperty (p : Property) : Json :=
  .obj [(("type"), .str p.type), (("value"), p.value)]

/-- Model of `json.Marshal` for `Entry` (fields with `omitempty` are
dropped when empty, as in `encoding/json`). -/
def marshalEntry (e : Entry) : Json :=
  .obj ([(("name"), .str e.name)] ++
    (if e.replaces = ("") then [] else [(("replaces"), .str e.replaces)]) ++
    (if e.skips.isEmpty then [] else [(("skips"), .arr (e.skips.map .str))]) ++
    (if e.skipRange = ("") then [] else [(("skipRange"), .str e.skipRange)]) ++
    (if e.properties.isEmpty then [] else
      [(("properties"), .arr (e.properties.map marshalProperty))]))

/-- Model of `json.Marshal` for `Channel`.  Nil and empty slices are both
rendered as an empty array: the re-decoded map is only ever queried for
its "repository" and "properties" keys, so the distinction (Go renders a
nil slice as `null`) is unobservable. -/
def marshalChannel (c : Channel) : Json :=
  .obj [(("name"), .str c.name), (("currentCSV"), .str c.currentCSV),
        (("entries"), .arr (c.entries.map marshalEntry))]

/-- Model of `json.Marshal` for `Package`. -/
def marshalPackage (p : Package) : Json :=
  .obj [(("schema"), .str p.schema), (("name"), .str p.name),
        (("defaultChannel"), .str p.defaultChannel),
        (("description"), .str p.description),
        (("icon"), p.icon),
        (("channels"), .arr (p.channels.map marshalChannel))]

/-- Model of `json.Marshal` for `OperatorIndex` followed by re-decoding
into a generic map (`pkg/parser.go` lines 166-170): the raw `interface{}`
fields pass through unchanged (Go would re-serialize them, which only
reorders object keys and is unobservable through map lookups). -/
def marshalOperatorIndex (idx : OperatorIndex) : Json :=
  .obj [(("schema"), .str idx.schema), (("image"), .str idx.image),
        (("relatedImages"), idx.relatedImages),
        (("properties"), idx.properties),
        (("packages"), .arr (idx.packages.map marshalPackage))]

/-- Re-decode the marshalled index into a generic entry map
(`json.Unmarshal(indexBytes, &entry)`, whose error is ignored by the Go
code; the marshalled value is always an object). -/
def jsonToMap : Json → GoMap
  | .obj fs => fs
  | _ => []

/-- Embedding of `isValidRepositoryURL` from `pkg/parser.go`. -/
def isValidRepositoryURL (url : String) : Bool :=
  hasPrefixS url ("http://") || hasPrefixS url ("https://") || hasPrefixS url ("git@")

/-- Insert a URL into the repositories set (`repositories[repoStr] = true`
on a Go map; modelled as an insertion-ordered duplicate-free list). -/
def addRepo (rs : List String) (url : String) : List String :=
  if url ∈ rs then rs else rs ++ [url]

/-- The gate-then-insert pattern repeated at every extraction site of
`pkg/parser.go`: `if isValidRepositoryURL(repoStr) then repositories[repoStr] = true`. -/
def addIfValid (rs : List String) (url : String) : List String :=
  if isValidRepositoryURL url then addRepo rs url else rs

/-- Sum of the brace deltas of a line (`pkg/parser.go` lines 116-122). -/
def braceDelta (l : List Char) : Int :=
  l.foldl (fun acc c =>
    if c = openBraceC then acc + 1
    else if c = closeBraceC then acc - 1
    else acc) 0

/-- The NDJSON scanning loop of `ParseOperatorIndex` (`pkg/parser.go`
lines 103-134): accumulate trimmed lines until the running brace count is
balanced, then decode the buffer as one generic JSON object.  On a decode
failure the loop breaks with `ndjsonSuccess = false`, keeping the entries
decoded so far.  Returns the decoded entries and the `ndjsonSuccess`
flag. -/
def ndjsonScan (cur : List Char) (braceCount : Int) (acc : List GoMap) :
    List (List Char) → List GoMap × Bool
  | [] => (acc, true)
  | l :: ls =>
    let line := trimChars l
    if line.isEmpty then ndjsonScan cur braceCount acc ls
    else
      let cur2 := cur ++ line
      let bc2 := braceCount + braceDelta line
      if bc2 = 0 ∧ ¬ cur2.isEmpty then
        match unmarshalMapChars cur2 with
        | none => (acc, false)
        | some e => ndjsonScan [] bc2 (acc ++ [e]) ls
      else ndjsonScan cur2 bc2 acc ls

/-- The per-property step of strategy 2: collect `value.repository` when
the property value is an object with a string "repository" field
(`pkg/parser.go` lines 151-160). -/
def structuredPropExtract (rs : List String) (prop : Property) : List String :=
  match prop.value with
  | .obj vm =>
    match mapGet vm ("repository") with
    | some (.str r) => addIfValid rs r
    | _ => rs
  | _ => rs

/-- Strategy 2 of `ParseOperatorIndex` (`pkg/parser.go` lines 147-164 and
179-196): walk packages → channels → entries → properties of the typed
index. -/
def structuredExtract (idx : OperatorIndex) (rs : List String) : List String :=
  idx.packages.foldl (fun rs pkg =>
    pkg.channels.foldl (fun rs ch =>
      ch.entries.foldl (fun rs ent =>
        ent.properties.foldl structuredPropExtract rs) rs) rs) rs

/-- The `olm.csv.metadata` block of strategy 3 (`pkg/parser.go` lines
216-237): such properties contribute `value.annotations.repository`. -/
def csvMetadataExtract (rs : List String) (propMap : GoMap) : List String :=
  match mapGet propMap ("type") with
  | some (.str t) =>
    if t = ("olm.csv.metadata") then
      match mapGet propMap ("value") with
      | some (.obj vm) =>
        match mapGet vm ("annotations") with
        | some (.obj am) =>
          match mapGet am ("repository") with
          | some (.str r) => addIfValid rs r
          | _ => rs
        | _ => rs
      | _ => rs
    else rs
  | _ => rs

/-- The `olm.package` / `olm.bundle` block of strategy 3
(`pkg/parser.go` lines 239-256): such properties contribute
`value.repository`. -/
def packageBundleExtract (rs : List String) (propMap : GoMap) : List String :=
  match mapGet propMap ("type") with
  | some (.str t) =>
    if t = ("olm.package") || t = ("olm.bundle") then
      match mapGet propMap ("value") with
      | some (.obj vm) =>
        match mapGet vm ("repository") with
        | some (.str r) => addIfValid rs r
        | _ => rs
      | _ => rs
    else rs
  | _ => rs

/-- The per-property part of strategy 3 (`pkg/parser.go` lines 215-257):
the csv-metadata block runs first, then the package/bundle block. -/
def extractFromPropMap (rs : List String) (propMap : GoMap) : List String :=
  packageBundleExtract (csvMetadataExtract rs propMap) propMap

/-- The direct-field part of strategy 3 (`pkg/parser.go` lines 203-209). -/
def directRepoExtract (rs : List String) (entry : GoMap) : List String :=
  match mapGet entry ("repository") with
  | some (.str r) => addIfValid rs r
  | _ => rs

/-- The properties-array part of strategy 3 (`pkg/parser.go` lines
212-260). -/
def propsArrayExtract (rs : List String) (entry : GoMap) : List String :=
  match mapGet entry ("properties") with
  | some (.arr props) =>
    props.foldl (fun acc p =>
      match p with
      | .obj pm => extractFromPropMap acc pm
      | _ => acc) rs
  | _ => rs

/-- Strategy 3 of `ParseOperatorIndex` (`pkg/parser.go` lines 201-261):
inspect one generic entry for a direct "repository" field and for a
"properties" array. -/
def genericExtractEntry (rs : List String) (entry : GoMap) : List String :=
  propsArrayExtract (directRepoExtract rs entry) entry

/-- The search pattern of the raw-text fallback. -/
def repoKeyColon : String := "\"repository\":"

/-- Embedding of `extractRepositoriesFromRawJSON` from `pkg/parser.go`
lines 291-322, including its index arithmetic exactly as written (after
locating the first quote at relative offset `rel` past the pattern, the Go
code computes the slice start as `rel + (len(pattern) + rel + 1)`,
having overwritten the absolute match position).  Where the computed start
exceeds the line length Go would panic on the slice; `List.drop` instead
yields the empty list, on which no closing quote is found and the line
contributes nothing. -/
def extractRepositoriesFromRawJSON (content : List Char) : List String :=
  (splitLines content).foldl (fun acc l =>
    let line := trimChars l
    if containsSub line repoKeyColon.data then
      match indexOfSub line repoKeyColon.data with
      | none => acc
      | some start0 =>
        let start1 := start0 + repoKeyColon.data.length
        match indexOfSub (line.drop start1) [quoteC] with
        | none => acc
        | some rel =>
          let start2 := rel + (repoKeyColon.data.length + rel + 1)
          match indexOfSub (line.drop start2) [quoteC] with
          | none => acc
          | some endIdx =>
            let repo := String.mk ((line.drop start2).take endIdx)
            if ¬ repo.data.isEmpty ∧ hasPrefixS repo ("http") then acc ++ [repo]
            else acc
    else acc) []

/-- Error messages of `ParseOperatorIndex`. -/
def msgEmptyIndex : String := "index file is empty"

def msgParseFailed : String := "failed to parse JSON"

def msgNoRepos : String := "no valid repositories found in index"

/-- The re-parse step of `ParseOperatorIndex` (`pkg/parser.go` lines
173-198): when no repository was found yet but entries exist, decode the
whole document as a typed index again and run strategy 2 on it when it has
packages. -/
def reParseStructured (content : String) (allEntries : List GoMap)
    (repos0 : List String) : List String :=
  if repos0.isEmpty ∧ ¬ allEntries.isEmpty then
    match decodeOperatorIndex content.data with
    | some idx =>
      if ¬ idx.packages.isEmpty then structuredExtract idx repos0 else repos0
    | none => repos0
  else repos0

/-- The final emptiness check of `ParseOperatorIndex` (`pkg/parser.go`
lines 277-283). -/
def finalizeRepos (rs : List String) : Except AnalyzerError (List String) :=
  if rs.isEmpty then .error (AnalyzerError.mk .validation msgNoRepos)
  else .ok rs

/-- The tail of `ParseOperatorIndex` after `allEntries` and the initial
repositories set are fixed (`pkg/parser.go` lines 173-283): the re-parse
of the whole document when no repository was found yet, strategy 3 over
all entries, the raw-text fallback, and the final emptiness check. -/
def parseFromEntries (content : String) (allEntries : List GoMap)
    (repos0 : List String) : Except AnalyzerError (List String) :=
  finalizeRepos ((extractRepositoriesFromRawJSON content.data).foldl addIfValid
    (allEntries.foldl genericExtractEntry
      (reParseStructured content allEntries repos0)))

/-- Embedding of `ParseOperatorIndex` from `pkg/parser.go`, from the file
contents onward.  Successful results carry the repositories set as an
insertion-ordered duplicate-free list (Go iterates the map in unspecified
order; the set of elements is what the code contracts). -/
def ParseOperatorIndex (content : String) : Except AnalyzerError (List String) :=
  if content.data.isEmpty then .error (AnalyzerError.mk .validation msgEmptyIndex)
  else
    if (ndjsonScan [] 0 [] (splitLines content.data)).2 then
      parseFromEntries content (ndjsonScan [] 0 [] (splitLines content.data)).1 []
    else
      match decodeOperatorIndex content.data with
      | none => .error (AnalyzerError.mk .parsing msgParseFailed)
      | some idx =>
        parseFromEntries content [jsonToMap (marshalOperatorIndex idx)]
          (structuredExtract idx [])

/-- The result of `ParseOperatorIndex` when the NDJSON scan has failed,
written without reference to the entries decoded before the failure: used
to state that those entries are discarded. -/
def parseAfterScanFailure (content : String) : Except AnalyzerError (List String) :=
  if content.data.isEmpty then .error (AnalyzerError.mk .validation msgEmptyIndex)
  else
    match decodeOperatorIndex content.data with
    | none => .error (AnalyzerError.mk .parsing msgParseFailed)
    | some idx =>
      parseFromEntries content [jsonToMap (marshalOperatorIndex idx)]
        (structuredExtract idx [])

/-! Embedding of `pkg/formatter.go` and of the commit-traversal part of
`pkg/vibe_tools.go` (`generateBasicReleaseNotes`).  `time.Time` values are
modelled by their formatted representation (the code only ever calls
`Format("2006-01-02 15:04:05")` on them); the `time.Now()` calls are passed
in as explicit parameters. -/

/-- A time value, represented by its formatted rendering. -/
structure GoTime where
  formatted : String
deriving DecidableEq

/-- Model of `t.Format("2006-01-02 15:04:05")`. -/
def GoTime.format (t : GoTime) : String := t.formatted

/-- Model of Go `strings.TrimSpace` on strings. -/
def trimS (s : String) : String := String.mk (trimChars s.data)

/-- The `RepositoryInfo` struct of `pkg/formatter.go`. -/
structure RepositoryInfo where
  URL : String := ""
  Name : String := ""
  Description : String := ""
deriving DecidableEq

/-- The `CommitInfo` struct of `pkg/formatter.go`. -/
structure CommitInfo where
  Hash : String
  Message : String
  Author : String
  Date : GoTime
deriving DecidableEq

/-- The `WeeklySummary` struct of `pkg/formatter.go`. -/
structure WeeklySummary where
  TotalCommits : Nat
  TotalLinesChanged : Nat
  ActiveContributors : Nat
  AnalysisStart : GoTime
  AnalysisEnd : GoTime
deriving DecidableEq

/-- The `Contributor` struct of `pkg/formatter.go`. -/
structure Contributor where
  Name : String
  CommitCount : Nat
  Rank : Nat
deriving DecidableEq

/-- The `CommitDetail` struct of `pkg/formatter.go`. -/
structure CommitDetail where
  Hash : String
  Message : String
  Author : String
  Date : GoTime
deriving DecidableEq

/-- The `ReleaseNoteFormat` struct of `pkg/formatter.go`. -/
structure ReleaseNoteFormat where
  Header : String
  RepositoryInfo : RepositoryInfo
  AnalysisPeriod : String
  AnalysisStart : GoTime
  AnalysisEnd : GoTime
  LatestCommit : CommitInfo
  WeeklySummary : WeeklySummary
  Contributors : List Contributor
  Commits : List CommitDetail
  Footer : String

/-- The `ReleaseNoteFormatter` struct of `pkg/formatter.go`
(`NewReleaseNoteFormatter` sets `MaxContributors = 5`, `MaxCommits = 50`). -/
structure ReleaseNoteFormatter where
  MaxContributors : Nat
  MaxCommits : Nat

/-- Model of `strings.Repeat("-", 80)`. -/
def dashLine : String := String.mk (List.replicate 80 '-')

/-- One contributor line of `FormatReleaseNote`. -/
def contributorLine (c : Contributor) : String :=
  toString c.Rank ++ (". ") ++ c.Name ++ (" (") ++ toString c.CommitCount ++ (" commits)\n")

/-- One commit line of `FormatReleaseNote`. -/
def commitLine (c : CommitDetail) : String :=
  ("- ") ++ trimS c.Message ++ (" (") ++ c.Hash ++ (") by ") ++ c.Author ++
  (" on ") ++ c.Date.format ++ ("\n")

/-- The fixed section printed by `FormatReleaseNote` when the commit list
is empty (`pkg/formatter.go` lines 140-143). -/
def noCommitsBlock : String :=
  ("=== NO COMMITS IN LAST WEEK ===\n") ++
  ("No commits found in the main branch during the last 7 days.\n")

/-- Everything `FormatReleaseNote` writes before the commits section
(`pkg/formatter.go` lines 80-121). -/
def fmtHeaderPart (format : ReleaseNoteFormat) : String :=
  format.Header ++ ("\n") ++
  ("Repository: ") ++ format.RepositoryInfo.URL ++ ("\n") ++
  (if format.RepositoryInfo.Name = ("") then ("")
   else ("Name: ") ++ format.RepositoryInfo.Name ++ ("\n")) ++
  (if format.RepositoryInfo.Description = ("") then ("")
   else ("Description: ") ++ format.RepositoryInfo.Description ++ ("\n")) ++
  dashLine ++ ("\n") ++
  ("Analysis Period: ") ++ format.AnalysisPeriod ++ ("\n") ++
  ("Analysis Start: ") ++ format.AnalysisStart.format ++ ("\n") ++
  ("Analysis End: ") ++ format.AnalysisEnd.format ++ ("\n\n") ++
  ("=== LATEST COMMIT INFORMATION ===\n") ++
  ("Hash: ") ++ format.LatestCommit.Hash ++ ("\n") ++
  ("Message: ") ++ format.LatestCommit.Message ++ ("\n") ++
  ("Author: ") ++ format.LatestCommit.Author ++ ("\n") ++
  ("Date: ") ++ format.LatestCommit.Date.format ++ ("\n\n") ++
  ("=== WEEKLY ACTIVITY SUMMARY ===\n") ++
  ("Total Commits: ") ++ toString format.WeeklySummary.TotalCommits ++ ("\n") ++
  ("Total Lines Changed: ") ++ toString format.WeeklySummary.TotalLinesChanged ++ ("\n") ++
  ("Active Contributors: ") ++ toString format.WeeklySummary.ActiveContributors ++ ("\n\n") ++
  (if format.Contributors.isEmpty then ("")
   else ("=== TOP CONTRIBUTORS (LAST WEEK) ===\n") ++
        String.join (format.Contributors.map contributorLine) ++ ("\n"))

/-- The number of commit lines `FormatReleaseNote` prints
(`commitCount` after the cap at `pkg/formatter.go` lines 126-130). -/
def commitsShown (rnf : ReleaseNoteFormatter) (format : ReleaseNoteFormat) : Nat :=
  if format.Commits.length > rnf.MaxCommits then rnf.MaxCommits
  else format.Commits.length

/-- The truncation notice of `FormatReleaseNote` (`pkg/formatter.go` line
128), empty when the guard does not fire. -/
def commitsNotice (rnf : ReleaseNoteFormatter) (format : ReleaseNoteFormat) : String :=
  if format.Commits.length > rnf.MaxCommits then
    ("(Showing first ") ++ toString rnf.MaxCommits ++ (" of ") ++
    toString format.Commits.length ++ (" commits)\n")
  else ("")

/-- The commit lines rendered by `FormatReleaseNote`. -/
def renderedCommitLines (rnf : ReleaseNoteFormatter) (format : ReleaseNoteFormat) :
    List String :=
  (format.Commits.take (commitsShown rnf format)).map commitLine

/-- The commits section of `FormatReleaseNote` (`pkg/formatter.go` lines
123-143). -/
def commitsSection (rnf : ReleaseNoteFormatter) (format : ReleaseNoteFormat) : String :=
  if format.Commits.isEmpty then noCommitsBlock
  else ("=== COMMITS FROM LAST WEEK ===\n") ++ commitsNotice rnf format ++
       String.join (renderedCommitLines rnf format)

/-- The footer section of `FormatReleaseNote` (`pkg/formatter.go` lines
145-151, including the closing blank lines). -/
def footerSection (format : ReleaseNoteFormat) : String :=
  (if format.Footer = ("") then ("") else ("\n") ++ format.Footer) ++ ("\n\n")

/-- Embedding of `(*ReleaseNoteFormatter).FormatReleaseNote` from
`pkg/formatter.go`. -/
def FormatReleaseNote (rnf : ReleaseNoteFormatter) (format : ReleaseNoteFormat) : String :=
  fmtHeaderPart format ++ commitsSection rnf format ++ footerSection format

/-- Embedding of `(*ReleaseNoteFormatter).CreateStandardFormat` from
`pkg/formatter.go` (`genTime` stands for the `time.Now()` call in the
header). -/
def CreateStandardFormat (rnf : ReleaseNoteFormatter) (genTime : GoTime)
    (repoURL : String) (analysisStart analysisEnd : GoTime)
    (latestCommit : CommitInfo) (weeklySummary : WeeklySummary)
    (contributors : List Contributor) (commits : List CommitDetail) :
    ReleaseNoteFormat :=
  let contributors :=
    if contributors.length > rnf.MaxContributors then
      contributors.take rnf.MaxContributors
    else contributors
  let commits :=
    if commits.length > rnf.MaxCommits then commits.take rnf.MaxCommits
    else commits
  { Header := ("Release Notes Generated on: ") ++ genTime.format
    RepositoryInfo := { URL := repoURL }
    AnalysisPeriod := ("Last 7 days (since ") ++ analysisStart.format ++ (")")
    AnalysisStart := analysisStart
    AnalysisEnd := analysisEnd
    LatestCommit := latestCommit
    WeeklySummary := weeklySummary
    Contributors := contributors
    Commits := commits
    Footer := ("Generated by Prega Operator Analyzer") }

/-- A commit as visited during the `repo.Log` traversal of
`generateBasicReleaseNotes` (`pkg/vibe_tools.go`). -/
structure GitCommit where
  hash : String
  message : String
  author : String
  date : GoTime

/-- Outcome of computing one commit's diff statistics (`c.Stats()` inside
the recover-guarded closure, `pkg/vibe_tools.go` lines 334-349): a list of
per-file (addition, deletion) pairs, an ordinary error, or a panic in the
diff library.  The `defer`/`recover` containment is modelled by the
non-`ok` outcomes contributing nothing, which is exactly what the Go code
achieves (the panic can only originate inside `c.Stats()`, before any
addition reaches `totalChanges`). -/
inductive StatsOutcome where
  | ok (fileStats : List (Nat × Nat))
  | errored
  | panicked

/-- The lines a commit contributes to `totalChanges`
(`stat.Addition + stat.Deletion` summed over files, or 0 when `c.Stats()`
failed or panicked). -/
def statsContribution : StatsOutcome → Nat
  | .ok fileStats => (fileStats.map (fun p => p.1 + p.2)).sum
  | .errored => 0
  | .panicked => 0

/-- Model of `c.Hash.String()[:8]` (git hashes are 40 hex characters). -/
def take8 (s : String) : String := String.mk (s.data.take 8)

/-- The `CommitDetail` recorded for a visited commit
(`pkg/vibe_tools.go` lines 355-360). -/
def mkCommitDetail (c : GitCommit) : CommitDetail :=
  CommitDetail.mk (take8 c.hash) (trimS c.message) c.author c.date

/-- Increment an author's commit count (`authorStats[c.Author.Name]++` on
a Go map, modelled as a first-seen-ordered association list). -/
def bumpAuthor : List (String × Nat) → String → List (String × Nat)
  | [], a => [(a, 1)]
  | (b, n) :: rest, a =>
    if b = a then (b, n + 1) :: rest else (b, n) :: bumpAuthor rest a

/-- Traversal state of the `commitIter.ForEach` loop. -/
structure TraversalState where
  commitCount : Nat
  totalChanges : Nat
  authorStats : List (String × Nat)
  commitDetails : List CommitDetail

/-- The body of the `commitIter.ForEach` closure (`pkg/vibe_tools.go`
lines 329-363): count the commit, add its (recover-contained) stats
contribution, bump its author, append its detail record, and continue
(the closure always returns nil). -/
def visitCommit (stats : GitCommit → StatsOutcome) (st : TraversalState)
    (c : GitCommit) : TraversalState :=
  TraversalState.mk (st.commitCount + 1)
    (st.totalChanges + statsContribution (stats c))
    (bumpAuthor st.authorStats c.author)
    (st.commitDetails ++ [mkCommitDetail c])

/-- The whole commit traversal. -/
def traverseCommits (stats : GitCommit → StatsOutcome)
    (commits : List GitCommit) : TraversalState :=
  commits.foldl (visitCommit stats) (TraversalState.mk 0 0 [] [])

/-- The local `authorCommit` struct of `generateBasicReleaseNotes`. -/
structure AuthorCommit where
  author : String
  count : Nat
deriving DecidableEq

/-- One pass of the inner `j` loop of the "simple sort"
(`pkg/vibe_tools.go` lines 382-388) with `x` standing for `a[i]`: whenever
the carried element's count is smaller than the next element's the two are
swapped.  Returns the element left at position `i` and the rearranged
remainder. -/
def sweep : AuthorCommit → List AuthorCommit → AuthorCommit × List AuthorCommit
  | x, [] => (x, [])
  | x, y :: ys =>
    if x.count < y.count then
      let r := sweep y ys
      (r.1, x :: r.2)
    else
      let r := sweep x ys
      (r.1, y :: r.2)

/-- The outer `i` loop of the "simple sort", fuelled by the list length
(`sweep` preserves length, so the fuel never runs out). -/
def exchangeSortAux : Nat → List AuthorCommit → List AuthorCommit
  | 0, l => l
  | _ + 1, [] => []
  | fuel + 1, x :: xs =>
    let r := sweep x xs
    r.1 :: exchangeSortAux fuel r.2

/-- The descending "simple sort" of `generateBasicReleaseNotes`. -/
def exchangeSort (l : List AuthorCommit) : List AuthorCommit :=
  exchangeSortAux l.length l

/-- Rank assignment (`pkg/vibe_tools.go` lines 391-397): position `i` gets
rank `i + 1`. -/
def assignRanks : Nat → List AuthorCommit → List Contributor
  | _, [] => []
  | i, a :: rest => Contributor.mk a.author a.count (i + 1) :: assignRanks (i + 1) rest

/-- Contributors list built from the per-author aggregation
(`pkg/vibe_tools.go` lines 370-397).  Go iterates the `authorStats` map in
unspecified order; the embedding uses the first-seen order of the
association list, the most favorable determinization for the tie-order
claim. -/
def rankContributors (authorStats : List (String × Nat)) : List Contributor :=
  assignRanks 0 (exchangeSort (authorStats.map (fun p => AuthorCommit.mk p.1 p.2)))

/-- The tail of `generateBasicReleaseNotes` (`pkg/vibe_tools.go` lines
306-421) after the repository was opened and the branch tip `tip` was
resolved: traverse the windowed commits, rank contributors, assemble the
standard format (latest commit = the tip, independent of the window), and
render it.  Returns the assembled format and the rendered report. -/
def basicReleaseNotes (fmtr : ReleaseNoteFormatter) (genTime : GoTime)
    (repoURL : String) (tip : GitCommit) (oneWeekAgo nowT : GoTime)
    (stats : GitCommit → StatsOutcome) (commits : List GitCommit) :
    ReleaseNoteFormat × String :=
  let st := traverseCommits stats commits
  let contributors := rankContributors st.authorStats
  let format := CreateStandardFormat fmtr genTime repoURL oneWeekAgo nowT
    (CommitInfo.mk (take8 tip.hash) tip.message tip.author tip.date)
    (WeeklySummary.mk st.commitCount st.totalChanges st.authorStats.length
      oneWeekAgo nowT)
    contributors st.commitDetails
  (format, FormatReleaseNote fmtr format)

/-- First index at which an author occurs in the aggregation (used to
state the tie-order claim). -/
def encounterIdx (enc : List (String × Nat)) (name : String) : Nat :=
  enc.findIdx (fun p => p.1 = name)

/-- Formalization of the tie-order part of the contributor-ranking claim:
among equal commit counts, the ranked output preserves the order in which
the authors were first seen. -/
def tiesKeepEncounterOrder (enc : List (String × Nat)) : Prop :=
  ∀ i j, (hi : i < (rankContributors enc).length) →
    (hj : j < (rankContributors enc).length) → i < j →
    ((rankContributors enc).get ⟨i, hi⟩).CommitCount =
      ((rankContributors enc).get ⟨j, hj⟩).CommitCount →
    encounterIdx enc ((rankContributors enc).get ⟨i, hi⟩).Name <
      encounterIdx enc ((rankContributors enc).get ⟨j, hj⟩).Name

/-! Concrete inputs used by the per-claim evaluations and witnesses. -/

/-- A one-line document whose only repository reference sits in a nested
object not examined by strategies 1-3: the claimed raw-text fallback is the
only candidate to recover it. -/
def docC1 : String :=
  "\x7b\"nested\": \x7b\"repository\": \"https://github.com/test/operator\"\x7d\x7d"

/-- A malformed one-line JSON document that contains no "repository": text. -/
def docC2 : String := "\x7b\"a\":\x7d"

/-- A two-line document whose first line decodes (with a direct repository
field) before the NDJSON scan fails on the second line. -/
def docC3 : String :=
  "\x7b\"repository\": \"https://github.com/a/b\"\x7d\nx\x7b\x7d"

/-- A well-formed one-line document with one extractable repository. -/
def docOK : String := "\x7b\"repository\":\"https://github.com/a\"\x7d"

/-- An operation failing with a retryable network error on its first two
invocations and succeeding afterwards. -/
def opW6 : Nat → Option GoError :=
  fun i => if i < 2 then some (.analyzer (AnalyzerError.mk .network ("boom"))) else none

/-- A formatter capped at 1 commit line, for the truncation-notice claim. -/
def fmtrW9 : ReleaseNoteFormatter := ReleaseNoteFormatter.mk 5 1

/-- Two distinct commit details for the truncation-notice claim. -/
def cdW9a : CommitDetail := CommitDetail.mk ("aaaa0001") ("first") ("au") (GoTime.mk ("t1"))

def cdW9b : CommitDetail := CommitDetail.mk ("aaaa0002") ("second") ("au") (GoTime.mk ("t2"))

/-- The format assembled by the standard pipeline for a summary whose full
commit list (2 commits) exceeds `MaxCommits` (1). -/
def fmtW9 : ReleaseNoteFormat :=
  CreateStandardFormat fmtrW9 (GoTime.mk ("g")) ("https://github.com/w/r")
    (GoTime.mk ("s")) (GoTime.mk ("e"))
    (CommitInfo.mk ("aaaa0001") ("first") ("au") (GoTime.mk ("t1")))
    (WeeklySummary.mk 2 0 1 (GoTime.mk ("s")) (GoTime.mk ("e"))) [] [cdW9a, cdW9b]

/-- Stats oracle for the tie-order scenario (no commit contributes lines). -/
def statsW10 : GitCommit → StatsOutcome := fun _ => .ok []

/-- Seven commits encountered in the order Alice, Alice, Bob, Bob, Carol,
Carol, Carol, so that Alice and Bob tie at 2 commits with Alice first. -/
def commitsW10 : List GitCommit :=
  [GitCommit.mk ("a1") ("m") ("Alice") (GoTime.mk ("d")),
   GitCommit.mk ("a2") ("m") ("Alice") (GoTime.mk ("d")),
   GitCommit.mk ("b1") ("m") ("Bob") (GoTime.mk ("d")),
   GitCommit.mk ("b2") ("m") ("Bob") (GoTime.mk ("d")),
   GitCommit.mk ("c1") ("m") ("Carol") (GoTime.mk ("d")),
   GitCommit.mk ("c2") ("m") ("Carol") (GoTime.mk ("d")),
   GitCommit.mk ("c3") ("m") ("Carol") (GoTime.mk ("d"))]

/-- The per-author aggregation produced by that traversal. -/
def encW10 : List (String × Nat) := [(("Alice"), 2), (("Bob"), 2), (("Carol"), 3)]

/-- Stats oracle for the traversal witness: the commit with hash "p1"
panics, every other commit has one file with 3 additions and 4 deletions. -/
def statsW7 : GitCommit → StatsOutcome :=
  fun c => if c.hash = ("p1") then .panicked else .ok [(3, 4)]

/-- Three commits, the middle one with pathological diff stats. -/
def commitsW7 : List GitCommit :=
  [GitCommit.mk ("h1") (" fix a ") ("Ann") (GoTime.mk ("d1")),
   GitCommit.mk ("p1") ("huge diff") ("Ben") (GoTime.mk ("d2")),
   GitCommit.mk ("h3") ("fix b") ("Ann") (GoTime.mk ("d3"))]

/-- The default formatter (`NewReleaseNoteFormatter`). -/
def fmtrW8 : ReleaseNoteFormatter := ReleaseNoteFormatter.mk 5 50

/-- A branch tip for the empty-window witness. -/
def tipW8 : GitCommit :=
  GitCommit.mk ("0123456789abcdef0123456789abcdef01234567") ("tip message")
    ("Tipper") (GoTime.mk ("2020-01-01 00:00:00"))

/-- The invariant maintained by the repositories set: every member passed
the URL-validation gate, and there are no duplicates. -/
def ReposInv (rs : List String) : Prop :=
  (∀ r ∈ rs, isValidRepositoryURL r = true) ∧ rs.Nodup

/-! General helper lemmas. -/

/-- A list is a prefix (in the Boolean sense) of itself followed by
anything. -/
theorem isPrefixOf_append_self (p b : List Char) : p.isPrefixOf (p ++ b) = true := by
  induction p with
  | nil => simp [List.isPrefixOf]
  | cons c cs ih => simp [List.isPrefixOf, ih]

/-- The substring search succeeds on any string that contains the pattern
as a contiguous segment. -/
theorem indexOfSub_append_isSome (a p b : List Char) :
    (indexOfSub (a ++ (p ++ b)) p).isSome = true := by
  induction a with
  | nil =>
    cases hp : p ++ b with
    | nil =>
      have hpe : p = [] := by
        cases p with
        | nil => rfl
        | cons x xs => simp at hp
      simp [indexOfSub, hpe]
    | cons x xs =>
      simp only [List.nil_append, indexOfSub, hp]
      have hpre := isPrefixOf_append_self p b
      rw [hp] at hpre
      simp [hpre]
  | cons x a' ih =>
    simp only [List.cons_append, indexOfSub]
    by_cases hpre : p.isPrefixOf (x :: (a' ++ (p ++ b))) = true
    · simp [hpre]
    · simp only [Bool.not_eq_true] at hpre
      simp only [hpre]
      cases hidx : indexOfSub (a' ++ (p ++ b)) p with
      | none => rw [hidx] at ih; simp at ih
      | some n => simp

/-- Containment holds for any explicit decomposition. -/
theorem containsSub_append (a p b : List Char) : containsSub (a ++ (p ++ b)) p = true := by
  unfold containsSub
  exact indexOfSub_append_isSome a p b

/-- String concatenation concatenates the underlying character lists. -/
theorem strData_append (s t : String) : (s ++ t).data = s.data ++ t.data := by
  cases s; cases t; rfl

/-- Invariant preservation through a left fold. -/
theorem foldl_inv {α β : Type} {P : β → Prop} {f : β → α → β}
    (hf : ∀ b a, P b → P (f b a)) :
    ∀ (l : List α) (b : β), P b → P (l.foldl f b) := by
  intro l
  induction l with
  | nil => intro b hb; exact hb
  | cons x xs ih => intro b hb; exact ih (f b x) (hf b x hb)

/-! Claim C5: the retry policy table. -/

/-- Claim C5: `Network` errors are retryable with a 5-second delay,
`Timeout` errors with a 10-second delay; `Git` (VersionControl) errors are
retryable exactly when the message is "failed to clone repository" or
"failed to fetch", the delay being 3 seconds; `Parsing`, `FileSystem`,
`Validation` and `Unknown` errors are never retryable and report delay 0. -/
theorem claim_C5 (e : AnalyzerError) :
    (e.errorType = ErrorType.network → e.IsRetryable = true ∧ e.GetRetryDelay = 5) ∧
    (e.errorType = ErrorType.timeout → e.IsRetryable = true ∧ e.GetRetryDelay = 10) ∧
    (e.errorType = ErrorType.git →
      (e.IsRetryable = true ↔
        (e.Message = ("failed to clone repository") ∨ e.Message = ("failed to fetch"))) ∧
      e.GetRetryDelay = 3) ∧
    ((e.errorType = ErrorType.parsing ∨ e.errorType = ErrorType.fileSystem ∨
      e.errorType = ErrorType.validation ∨ e.errorType = ErrorType.unknown) →
      e.IsRetryable = false ∧ e.GetRetryDelay = 0) := by
  obtain ⟨t, m⟩ := e
  cases t <;>
    simp [AnalyzerError.IsRetryable, AnalyzerError.GetRetryDelay]

/-- Witness for claim C5 at the error (Git, "failed to clone repository"). -/
theorem claim_C5_witness :
    (AnalyzerError.mk ErrorType.git ("failed to clone repository")).IsRetryable = true ∧
    (AnalyzerError.mk ErrorType.git ("failed to clone repository")).GetRetryDelay = 3 := by
  have h := (claim_C5 (AnalyzerError.mk ErrorType.git ("failed to clone repository"))).2.2.1 rfl
  exact ⟨h.1.mpr (Or.inl rfl), h.2⟩

/-! Claim C6: the retry loop. -/

/-- Unfolding: a successful invocation ends the loop at once. -/
theorem hwrAux_none (operation : Nat → Option GoError) (remaining attempt : Nat)
    (h : operation attempt = none) :
    handleWithRetryAux operation remaining attempt = (none, attempt + 1) := by
  rw [handleWithRetryAux, h]

/-- Unfolding: a failure with no retries remaining ends the loop. -/
theorem hwrAux_some_zero (operation : Nat → Option GoError) (attempt : Nat)
    (e : GoError) (h : operation attempt = some e) :
    handleWithRetryAux operation 0 attempt = (some e, attempt + 1) := by
  rw [handleWithRetryAux, h]

/-- Unfolding: a non-retryable failure ends the loop. -/
theorem hwrAux_some_stop (operation : Nat → Option GoError) (r attempt : Nat)
    (e : GoError) (h : operation attempt = some e)
    (hr : (classifyError e).IsRetryable = false) :
    handleWithRetryAux operation (r + 1) attempt = (some e, attempt + 1) := by
  rw [handleWithRetryAux, h]
  simp [hr]

/-- Unfolding: a retryable failure with retries remaining loops. -/
theorem hwrAux_some_retry (operation : Nat → Option GoError) (r attempt : Nat)
    (e : GoError) (h : operation attempt = some e)
    (hr : (classifyError e).IsRetryable = true) :
    handleWithRetryAux operation (r + 1) attempt =
      handleWithRetryAux operation r (attempt + 1) := by
  rw [handleWithRetryAux, h]
  simp [hr]

/-- Full specification of the retry loop, by induction on the remaining
retries: the invocation count is within bounds, the returned value is
exactly the outcome of the last invocation, and every non-final invocation
failed with a retryably-classified error. -/
theorem handleWithRetryAux_spec (operation : Nat → Option GoError) :
    ∀ (remaining attempt : Nat),
      attempt + 1 ≤ (handleWithRetryAux operation remaining attempt).2 ∧
      (handleWithRetryAux operation remaining attempt).2 ≤ attempt + remaining + 1 ∧
      (handleWithRetryAux operation remaining attempt).1 =
        operation ((handleWithRetryAux operation remaining attempt).2 - 1) ∧
      ∀ i, attempt ≤ i → i + 1 < (handleWithRetryAux operation remaining attempt).2 →
        ∃ e, operation i = some e ∧ (classifyError e).IsRetryable = true := by
  intro remaining
  induction remaining with
  | zero =>
    intro attempt
    cases hop : operation attempt with
    | none =>
      rw [hwrAux_none operation 0 attempt hop]
      refine ⟨le_refl _, by omega, by simp [hop], ?_⟩
      intro i hle hlt
      simp at hlt
      omega
    | some e =>
      rw [hwrAux_some_zero operation attempt e hop]
      refine ⟨le_refl _, by omega, by simp [hop], ?_⟩
      intro i hle hlt
      simp at hlt
      omega
  | succ r ih =>
    intro attempt
    cases hop : operation attempt with
    | none =>
      rw [hwrAux_none operation (r + 1) attempt hop]
      refine ⟨le_refl _, by omega, by simp [hop], ?_⟩
      intro i hle hlt
      simp at hlt
      omega
    | some e =>
      cases hr : (classifyError e).IsRetryable with
      | true =>
        rw [hwrAux_some_retry operation r attempt e hop hr]
        obtain ⟨h1, h2, h3, h4⟩ := ih (attempt + 1)
        refine ⟨by omega, by omega, h3, ?_⟩
        intro i hle hlt
        rcases Nat.eq_or_lt_of_le hle with heq | hlt2
        · exact ⟨e, by rw [← heq]; exact hop, hr⟩
        · exact h4 i (by omega) hlt
      | false =>
        rw [hwrAux_some_stop operation r attempt e hop hr]
        refine ⟨le_refl _, by omega, by simp [hop], ?_⟩
        intro i hle hlt
        simp at hlt
        omega

/-- Claim C6: `HandleWithRetry` invokes the operation at least once and at
most `MaxRetries + 1` times; the returned value is exactly the outcome of
the last invocation (`nil` on success, the raw last error unchanged on
failure — in particular not the `Unknown`-wrapped classification); and
every invocation before the last failed with an error classified as
retryable, so the loop stops at the first success and at the first
non-retryable failure. -/
theorem claim_C6 (maxRetries : Nat) (operation : Nat → Option GoError) :
    1 ≤ (HandleWithRetry maxRetries operation).2 ∧
    (HandleWithRetry maxRetries operation).2 ≤ maxRetries + 1 ∧
    (HandleWithRetry maxRetries operation).1 =
      operation ((HandleWithRetry maxRetries operation).2 - 1) ∧
    ∀ i, i + 1 < (HandleWithRetry maxRetries operation).2 →
      ∃ e, operation i = some e ∧ (classifyError e).IsRetryable = true := by
  obtain ⟨h1, h2, h3, h4⟩ := handleWithRetryAux_spec operation maxRetries 0
  simp only [HandleWithRetry]
  exact ⟨h1, by omega, h3, fun i hlt => h4 i (Nat.zero_le i) hlt⟩

/-- Witness for claim C6: with 3 retries allowed and an operation that
fails retryably twice and then succeeds, the loop performs 3 invocations,
returns success, and its first invocation indeed failed retryably. -/
theorem claim_C6_witness :
    (HandleWithRetry 3 opW6).2 ≤ 3 + 1 ∧
    (HandleWithRetry 3 opW6).1 = opW6 ((HandleWithRetry 3 opW6).2 - 1) ∧
    (∃ e, opW6 0 = some e ∧ (classifyError e).IsRetryable = true) := by
  obtain ⟨h1, h2, h3, h4⟩ := claim_C6 3 opW6
  exact ⟨h2, h3, h4 0 (by decide)⟩

/-! Claim C7: the commit traversal is total and isolates stats failures. -/

/-- Specification of the `ForEach` fold from an arbitrary starting state. -/
theorem traverseFoldl_spec (stats : GitCommit → StatsOutcome) :
    ∀ (cs : List GitCommit) (st : TraversalState),
      (cs.foldl (visitCommit stats) st).commitCount = st.commitCount + cs.length ∧
      (cs.foldl (visitCommit stats) st).totalChanges =
        st.totalChanges + (cs.map (fun c => statsContribution (stats c))).sum ∧
      (cs.foldl (visitCommit stats) st).commitDetails =
        st.commitDetails ++ cs.map mkCommitDetail := by
  intro cs
  induction cs with
  | nil => intro st; simp
  | cons c cs' ih =>
    intro st
    obtain ⟨h1, h2, h3⟩ := ih (visitCommit stats st c)
    simp only [List.foldl_cons, List.map_cons, List.length_cons, List.sum_cons]
    refine ⟨?_, ?_, ?_⟩
    · rw [h1]; simp [visitCommit]; omega
    · rw [h2]; simp [visitCommit]; omega
    · rw [h3]; simp [visitCommit]

/-- Claim C7: the traversal visits every commit of the window — the commit
count equals the window length and every commit is recorded with its
(shortened) hash, trimmed message, author and date — while the total line
count sums only the contributions of commits whose stats computation
succeeded; a commit whose stats computation panicked contributes zero
lines, and the traversal still processes all remaining commits. -/
theorem claim_C7 (stats : GitCommit → StatsOutcome) (commits : List GitCommit) :
    (traverseCommits stats commits).commitCount = commits.length ∧
    (traverseCommits stats commits).commitDetails = commits.map mkCommitDetail ∧
    (traverseCommits stats commits).totalChanges =
      (commits.map (fun c => statsContribution (stats c))).sum ∧
    statsContribution StatsOutcome.panicked = 0 := by
  obtain ⟨h1, h2, h3⟩ :=
    traverseFoldl_spec stats commits (TraversalState.mk 0 0 [] [])
  unfold traverseCommits
  exact ⟨by simpa using h1, by simpa using h3, by simpa using h2, rfl⟩

/-- Witness for claim C7 on a concrete window whose middle commit's stats
computation panics. -/
theorem claim_C7_witness :
    (traverseCommits statsW7 commitsW7).commitCount = commitsW7.length ∧
    (traverseCommits statsW7 commitsW7).commitDetails = commitsW7.map mkCommitDetail ∧
    (traverseCommits statsW7 commitsW7).totalChanges =
      (commitsW7.map (fun c => statsContribution (statsW7 c))).sum ∧
    statsContribution StatsOutcome.panicked = 0 :=
  claim_C7 statsW7 commitsW7

/-! Claim C8: empty windows produce a summary, the tip as latest commit,
and an explicit "no commits" section. -/

/-- Rendering a format whose commit list is empty always prints the
"no commits" block. -/
theorem formatReleaseNote_noCommits (rnf : ReleaseNoteFormatter)
    (format : ReleaseNoteFormat) (h : format.Commits = []) :
    containsSub (FormatReleaseNote rnf format).data noCommitsBlock.data = true := by
  unfold FormatReleaseNote commitsSection
  rw [h]
  simp only [List.isEmpty_nil, if_true]
  rw [strData_append, strData_append, List.append_assoc]
  exact containsSub_append _ _ _

/-- Claim C8: with an empty commit window (and the branch tip resolved),
the assembled summary reports 0 total commits, the latest commit is the
branch tip (its shortened hash, message, author and date), independent of
the window, and the rendered report contains the "no commits" block. -/
theorem claim_C8 (fmtr : ReleaseNoteFormatter) (genTime : GoTime) (repoURL : String)
    (tip : GitCommit) (oneWeekAgo nowT : GoTime) (stats : GitCommit → StatsOutcome) :
    (basicReleaseNotes fmtr genTime repoURL tip oneWeekAgo nowT stats
      []).1.WeeklySummary.TotalCommits = 0 ∧
    (basicReleaseNotes fmtr genTime repoURL tip oneWeekAgo nowT stats []).1.LatestCommit =
      CommitInfo.mk (take8 tip.hash) tip.message tip.author tip.date ∧
    containsSub (basicReleaseNotes fmtr genTime repoURL tip oneWeekAgo nowT stats
      []).2.data noCommitsBlock.data = true := by
  refine ⟨rfl, rfl, ?_⟩
  apply formatReleaseNote_noCommits
  simp [basicReleaseNotes, CreateStandardFormat, traverseCommits]

/-- Witness for claim C8 at a concrete tip and the default formatter. -/
theorem claim_C8_witness :
    (basicReleaseNotes fmtrW8 (GoTime.mk ("g")) ("https://github.com/w/r") tipW8
      (GoTime.mk ("s")) (GoTime.mk ("e")) statsW7 []).1.WeeklySummary.TotalCommits = 0 ∧
    (basicReleaseNotes fmtrW8 (GoTime.mk ("g")) ("https://github.com/w/r") tipW8
      (GoTime.mk ("s")) (GoTime.mk ("e")) statsW7 []).1.LatestCommit =
      CommitInfo.mk (take8 tipW8.hash) tipW8.message tipW8.author tipW8.date ∧
    containsSub (basicReleaseNotes fmtrW8 (GoTime.mk ("g")) ("https://github.com/w/r")
      tipW8 (GoTime.mk ("s")) (GoTime.mk ("e")) statsW7 []).2.data
      noCommitsBlock.data = true :=
  claim_C8 fmtrW8 (GoTime.mk ("g")) ("https://github.com/w/r") tipW8
    (GoTime.mk ("s")) (GoTime.mk ("e")) statsW7

/-! Claim C9: rendered caps and the truncation notice. -/

/-- Amended claim C9: the assembled format carries at most
`MaxContributors` contributors and at most `MaxCommits` commits, and the
rendered report prints at most `MaxCommits` commit lines — but because
`CreateStandardFormat` pre-truncates the commit list, the "(Showing first
N of M commits)" notice of `FormatReleaseNote` is never emitted by the
composed pipeline. -/
theorem claim_C9_amended (rnf : ReleaseNoteFormatter) (genTime : GoTime)
    (repoURL : String) (aStart aEnd : GoTime) (latest : CommitInfo)
    (summary : WeeklySummary) (contributors : List Contributor)
    (commits : List CommitDetail) :
    (CreateStandardFormat rnf genTime repoURL aStart aEnd latest summary
      contributors commits).Contributors.length ≤ rnf.MaxContributors ∧
    (CreateStandardFormat rnf genTime repoURL aStart aEnd latest summary
      contributors commits).Commits.length ≤ rnf.MaxCommits ∧
    (renderedCommitLines rnf (CreateStandardFormat rnf genTime repoURL aStart aEnd
      latest summary contributors commits)).length ≤ rnf.MaxCommits ∧
    commitsNotice rnf (CreateStandardFormat rnf genTime repoURL aStart aEnd latest
      summary contributors commits) = ("") := by
  have hcon : (CreateStandardFormat rnf genTime repoURL aStart aEnd latest summary
      contributors commits).Contributors =
      if contributors.length > rnf.MaxContributors then
        contributors.take rnf.MaxContributors
      else contributors := rfl
  have hcom : (CreateStandardFormat rnf genTime repoURL aStart aEnd latest summary
      contributors commits).Commits =
      if commits.length > rnf.MaxCommits then commits.take rnf.MaxCommits
      else commits := rfl
  have h1 : (CreateStandardFormat rnf genTime repoURL aStart aEnd latest summary
      contributors commits).Contributors.length ≤ rnf.MaxContributors := by
    rw [hcon]
    split
    · exact List.length_take_le _ _
    · omega
  have h2 : (CreateStandardFormat rnf genTime repoURL aStart aEnd latest summary
      contributors commits).Commits.length ≤ rnf.MaxCommits := by
    rw [hcom]
    split
    · exact List.length_take_le _ _
    · omega
  have hshown : commitsShown rnf (CreateStandardFormat rnf genTime repoURL aStart
      aEnd latest summary contributors commits) ≤ rnf.MaxCommits := by
    unfold commitsShown
    split
    · exact le_refl _
    · exact h2
  refine ⟨h1, h2, ?_, ?_⟩
  · unfold renderedCommitLines
    rw [List.length_map]
    exact le_trans (List.length_take_le _ _) hshown
  · unfold commitsNotice
    split
    · omega
    · rfl

/-- Witness for the amended claim C9 at the concrete capped formatter. -/
theorem claim_C9_amended_witness :
    fmtW9.Contributors.length ≤ fmtrW9.MaxContributors ∧
    fmtW9.Commits.length ≤ fmtrW9.MaxCommits ∧
    (renderedCommitLines fmtrW9 fmtW9).length ≤ fmtrW9.MaxCommits ∧
    commitsNotice fmtrW9 fmtW9 = ("") :=
  claim_C9_amended fmtrW9 (GoTime.mk ("g")) ("https://github.com/w/r")
    (GoTime.mk ("s")) (GoTime.mk ("e"))
    (CommitInfo.mk ("aaaa0001") ("first") ("au") (GoTime.mk ("t1")))
    (WeeklySummary.mk 2 0 1 (GoTime.mk ("s")) (GoTime.mk ("e"))) [] [cdW9a, cdW9b]

set_option maxRecDepth 100000 in
/-- Counterexample to claim C9 as stated: the standard pipeline, given a
summary with 2 commits and `MaxCommits = 1`, renders a report with no
"(Showing first ..." notice at all (the format's commit list was already
truncated to 1 before `FormatReleaseNote` could see the full length). -/
theorem claim_C9_counterexample :
    ([cdW9a, cdW9b] : List CommitDetail).length > fmtrW9.MaxCommits ∧
    fmtW9.Commits.length = fmtrW9.MaxCommits ∧
    containsSub (FormatReleaseNote fmtrW9 fmtW9).data (("(Showing first ")).data =
      false := by
  refine ⟨by decide, by rfl, by rfl⟩

/-! Claim C10: contributor ranking. -/

/-- The inner sweep preserves the length of the remainder. -/
theorem sweep_snd_length : ∀ (l : List AuthorCommit) (x : AuthorCommit),
    (sweep x l).2.length = l.length := by
  intro l
  induction l with
  | nil => intro x; rfl
  | cons y ys ih =>
    intro x
    simp only [sweep]
    by_cases h : x.count < y.count <;> simp [h, ih]

/-- The element the sweep leaves in front dominates the element it
started with. -/
theorem sweep_fst_ge_self : ∀ (l : List AuthorCommit) (x : AuthorCommit),
    x.count ≤ (sweep x l).1.count := by
  intro l
  induction l with
  | nil => intro x; exact le_refl _
  | cons y ys ih =>
    intro x
    simp only [sweep]
    by_cases h : x.count < y.count
    · simp only [h, if_true]
      exact le_trans (Nat.le_of_lt h) (ih y)
    · simp only [h, if_false]
      exact ih x

/-- The element the sweep leaves in front dominates every element of the
remainder. -/
theorem sweep_snd_le_fst : ∀ (l : List AuthorCommit) (x z : AuthorCommit),
    z ∈ (sweep x l).2 → z.count ≤ (sweep x l).1.count := by
  intro l
  induction l with
  | nil => intro x z h; simp [sweep] at h
  | cons y ys ih =>
    intro x z h
    simp only [sweep] at h ⊢
    by_cases hxy : x.count < y.count
    · simp only [hxy, if_true] at h ⊢
      rcases List.mem_cons.mp h with hz | hz
      · subst hz
        exact le_trans (Nat.le_of_lt hxy) (sweep_fst_ge_self ys y)
      · exact ih y z hz
    · simp only [hxy, if_false] at h ⊢
      rcases List.mem_cons.mp h with hz | hz
      · subst hz
        exact le_trans (Nat.le_of_not_lt hxy) (sweep_fst_ge_self ys x)
      · exact ih x z hz

/-- The front element of a sweep comes from the input. -/
theorem sweep_fst_mem : ∀ (l : List AuthorCommit) (x : AuthorCommit),
    (sweep x l).1 ∈ x :: l := by
  intro l
  induction l with
  | nil => intro x; simp [sweep]
  | cons y ys ih =>
    intro x
    simp only [sweep]
    by_cases h : x.count < y.count
    · simp only [h, if_true]
      have := ih y
      rcases List.mem_cons.mp this with hz | hz
      · simp [hz]
      · simp [hz]
    · simp only [h, if_false]
      have := ih x
      rcases List.mem_cons.mp this with hz | hz
      · simp [hz]
      · simp [hz]

/-- The remainder of a sweep comes from the input. -/
theorem sweep_snd_subset : ∀ (l : List AuthorCommit) (x z : AuthorCommit),
    z ∈ (sweep x l).2 → z ∈ x :: l := by
  intro l
  induction l with
  | nil => intro x z h; simp [sweep] at h
  | cons y ys ih =>
    intro x z h
    simp only [sweep] at h
    by_cases hxy : x.count < y.count
    · simp only [hxy, if_true] at h
      rcases List.mem_cons.mp h with hz | hz
      · simp [hz]
      · have := ih y z hz
        rcases List.mem_cons.mp this with hz2 | hz2 <;> simp [hz2]
    · simp only [hxy, if_false] at h
      rcases List.mem_cons.mp h with hz | hz
      · simp [hz]
      · have := ih x z hz
        rcases List.mem_cons.mp this with hz2 | hz2 <;> simp [hz2]

/-- Elements of the sorted output come from the input. -/
theorem exchangeSortAux_subset : ∀ (fuel : Nat) (l : List AuthorCommit)
    (z : AuthorCommit), z ∈ exchangeSortAux fuel l → z ∈ l := by
  intro fuel
  induction fuel with
  | zero => intro l z h; exact h
  | succ f ih =>
    intro l z h
    cases l with
    | nil => simp [exchangeSortAux] at h
    | cons x xs =>
      simp only [exchangeSortAux] at h
      rcases List.mem_cons.mp h with hz | hz
      · subst hz; exact sweep_fst_mem xs x
      · exact sweep_snd_subset xs x z (ih _ z hz)

/-- With sufficient fuel the exchange sort produces a list whose commit
counts are pairwise descending. -/
theorem exchangeSortAux_pairwise : ∀ (fuel : Nat) (l : List AuthorCommit),
    l.length ≤ fuel →
    (exchangeSortAux fuel l).Pairwise (fun a b => b.count ≤ a.count) := by
  intro fuel
  induction fuel with
  | zero =>
    intro l h
    have : l = [] := List.eq_nil_of_length_eq_zero (Nat.le_zero.mp h)
    subst this
    exact List.Pairwise.nil
  | succ f ih =>
    intro l h
    cases l with
    | nil => exact List.Pairwise.nil
    | cons x xs =>
      simp only [exchangeSortAux]
      refine List.Pairwise.cons ?_ (ih _ ?_)
      · intro b hb
        exact sweep_snd_le_fst xs x b (exchangeSortAux_subset f _ b hb)
      · rw [sweep_snd_length]
        simpa using h

/-- The exchange sort of `generateBasicReleaseNotes` sorts by commit count
descending. -/
theorem exchangeSort_pairwise (l : List AuthorCommit) :
    (exchangeSort l).Pairwise (fun a b => b.count ≤ a.count) :=
  exchangeSortAux_pairwise l.length l (le_refl _)

/-- Rank assignment preserves length. -/
theorem assignRanks_length : ∀ (l : List AuthorCommit) (i : Nat),
    (assignRanks i l).length = l.length := by
  intro l
  induction l with
  | nil => intro i; rfl
  | cons a rest ih => intro i; simp [assignRanks, ih]

/-- The ranks assigned from position `i` are `i+1, i+2, ...`. -/
theorem assignRanks_map_rank : ∀ (l : List AuthorCommit) (i : Nat),
    (assignRanks i l).map Contributor.Rank = List.range' (i + 1) l.length := by
  intro l
  induction l with
  | nil => intro i; rfl
  | cons a rest ih =>
    intro i
    simp only [assignRanks, List.map_cons, List.length_cons, ih]
    rfl

/-- Every assigned contributor keeps some input element's commit count. -/
theorem assignRanks_mem_count : ∀ (l : List AuthorCommit) (i : Nat)
    (c : Contributor), c ∈ assignRanks i l → ∃ a ∈ l, c.CommitCount = a.count := by
  intro l
  induction l with
  | nil => intro i c h; simp [assignRanks] at h
  | cons a rest ih =>
    intro i c h
    simp only [assignRanks] at h
    rcases List.mem_cons.mp h with hc | hc
    · exact ⟨a, List.mem_cons_self a rest, by rw [hc]⟩
    · obtain ⟨b, hb, hcb⟩ := ih (i + 1) c hc
      exact ⟨b, List.mem_cons_of_mem a hb, hcb⟩

/-- Rank assignment transports descending commit counts. -/
theorem assignRanks_pairwise : ∀ (l : List AuthorCommit) (i : Nat),
    l.Pairwise (fun a b => b.count ≤ a.count) →
    (assignRanks i l).Pairwise (fun a b => b.CommitCount ≤ a.CommitCount) := by
  intro l
  induction l with
  | nil => intro i _; exact List.Pairwise.nil
  | cons a rest ih =>
    intro i h
    rcases List.pairwise_cons.mp h with ⟨ha, hrest⟩
    refine List.Pairwise.cons ?_ (ih (i + 1) hrest)
    intro y hy
    obtain ⟨b, hb, hyb⟩ := assignRanks_mem_count rest (i + 1) y hy
    rw [hyb]
    exact ha b hb

/-- Amended claim C10: the contributors list is sorted by commit count
descending and its `Rank` fields are `1, 2, 3, ...` in list order; the
tie-order part of the original claim is refuted separately. -/
theorem claim_C10_amended (authorStats : List (String × Nat)) :
    (rankContributors authorStats).Pairwise
      (fun a b => b.CommitCount ≤ a.CommitCount) ∧
    (rankContributors authorStats).map Contributor.Rank =
      List.range' 1 (rankContributors authorStats).length := by
  constructor
  · exact assignRanks_pairwise _ 0 (exchangeSort_pairwise _)
  · unfold rankContributors
    rw [assignRanks_map_rank, assignRanks_length]

/-- Witness for the amended claim C10 at the concrete aggregation. -/
theorem claim_C10_amended_witness :
    (rankContributors encW10).Pairwise
      (fun a b => b.CommitCount ≤ a.CommitCount) ∧
    (rankContributors encW10).map Contributor.Rank =
      List.range' 1 (rankContributors encW10).length :=
  claim_C10_amended encW10

/-- Counterexample to the tie-order part of claim C10: traversing commits
by Alice, Alice, Bob, Bob, Carol, Carol, Carol aggregates the authors in
encounter order Alice, Bob, Carol, yet the ranking places Bob (rank 2)
before Alice (rank 3) although both have 2 commits and Alice was
encountered first — the exchange sort swaps across equal counts. -/
theorem claim_C10_counterexample :
    (traverseCommits statsW10 commitsW10).authorStats = encW10 ∧
    rankContributors encW10 =
      [Contributor.mk ("Carol") 3 1, Contributor.mk ("Bob") 2 2,
       Contributor.mk ("Alice") 2 3] ∧
    ¬ tiesKeepEncounterOrder encW10 := by
  refine ⟨rfl, rfl, ?_⟩
  intro h
  have h12 := h 1 2 (by decide) (by decide) (by decide) (by decide)
  exact absurd h12 (by decide)

/-! Claim C4: every extracted repository passed the URL gate, and the
result set is duplicate-free. -/

/-- The empty set satisfies the invariant. -/
theorem reposInv_nil : ReposInv [] :=
  ⟨fun r h => absurd h (List.not_mem_nil r), List.nodup_nil⟩

/-- Set insertion of a gated URL preserves the invariant. -/
theorem addRepo_inv (rs : List String) (url : String) (h : ReposInv rs)
    (hv : isValidRepositoryURL url = true) : ReposInv (addRepo rs url) := by
  unfold addRepo
  split
  · exact h
  · rename_i hmem
    obtain ⟨hval, hnd⟩ := h
    constructor
    · intro r hr
      rcases List.mem_append.mp hr with hr | hr
      · exact hval r hr
      · rw [List.mem_singleton.mp hr]
        exact hv
    · rw [List.nodup_append]
      refine ⟨hnd, List.nodup_singleton url, ?_⟩
      intro a ha hb
      rw [List.mem_singleton.mp hb] at ha
      exact hmem ha

/-- The gate-then-insert step preserves the invariant. -/
theorem addIfValid_inv (rs : List String) (url : String) (h : ReposInv rs) :
    ReposInv (addIfValid rs url) := by
  unfold addIfValid
  split
  · rename_i hv
    exact addRepo_inv rs url h hv
  · exact h

/-- Strategy 2's per-property step preserves the invariant. -/
theorem structuredPropExtract_inv (rs : List String) (prop : Property)
    (h : ReposInv rs) : ReposInv (structuredPropExtract rs prop) := by
  unfold structuredPropExtract
  split
  · split
    · exact addIfValid_inv _ _ h
    · exact h
  · exact h

/-- Strategy 2 preserves the invariant. -/
theorem structuredExtract_inv (idx : OperatorIndex) (rs : List String)
    (h : ReposInv rs) : ReposInv (structuredExtract idx rs) := by
  unfold structuredExtract
  refine foldl_inv ?_ _ _ h
  intro b pkg hb
  refine foldl_inv ?_ _ _ hb
  intro b2 ch hb2
  refine foldl_inv ?_ _ _ hb2
  intro b3 ent hb3
  refine foldl_inv ?_ _ _ hb3
  intro b4 prop hb4
  exact structuredPropExtract_inv b4 prop hb4

/-- The csv-metadata block preserves the invariant. -/
theorem csvMetadataExtract_inv (rs : List String) (propMap : GoMap)
    (h : ReposInv rs) : ReposInv (csvMetadataExtract rs propMap) := by
  unfold csvMetadataExtract
  split
  · split
    · split
      · split
        · split
          · exact addIfValid_inv _ _ h
          · exact h
        · exact h
      · exact h
    · exact h
  · exact h

/-- The package/bundle block preserves the invariant. -/
theorem packageBundleExtract_inv (rs : List String) (propMap : GoMap)
    (h : ReposInv rs) : ReposInv (packageBundleExtract rs propMap) := by
  unfold packageBundleExtract
  split
  · split
    · split
      · split
        · exact addIfValid_inv _ _ h
        · exact h
      · exact h
    · exact h
  · exact h

/-- Strategy 3's per-property step preserves the invariant. -/
theorem extractFromPropMap_inv (rs : List String) (propMap : GoMap)
    (h : ReposInv rs) : ReposInv (extractFromPropMap rs propMap) :=
  packageBundleExtract_inv _ _ (csvMetadataExtract_inv rs propMap h)

/-- The direct-field step preserves the invariant. -/
theorem directRepoExtract_inv (rs : List String) (entry : GoMap)
    (h : ReposInv rs) : ReposInv (directRepoExtract rs entry) := by
  unfold directRepoExtract
  split
  · exact addIfValid_inv _ _ h
  · exact h

/-- The properties-array step preserves the invariant. -/
theorem propsArrayExtract_inv (rs : List String) (entry : GoMap)
    (h : ReposInv rs) : ReposInv (propsArrayExtract rs entry) := by
  unfold propsArrayExtract
  split
  · refine foldl_inv ?_ _ _ h
    intro b p hb
    split
    · exact extractFromPropMap_inv _ _ hb
    · exact hb
  · exact h

/-- Strategy 3 preserves the invariant. -/
theorem genericExtractEntry_inv (rs : List String) (entry : GoMap)
    (h : ReposInv rs) : ReposInv (genericExtractEntry rs entry) :=
  propsArrayExtract_inv _ _ (directRepoExtract_inv rs entry h)

/-- The re-parse step preserves the invariant. -/
theorem reParseStructured_inv (content : String) (allEntries : List GoMap)
    (repos0 : List String) (h : ReposInv repos0) :
    ReposInv (reParseStructured content allEntries repos0) := by
  unfold reParseStructured
  split
  · split
    · split
      · exact structuredExtract_inv _ _ h
      · exact h
    · exact h
  · exact h

/-- A successful `parseFromEntries` returns a set satisfying the
invariant. -/
theorem parseFromEntries_inv (content : String) (allEntries : List GoMap)
    (repos0 : List String) (res : List String) (h0 : ReposInv repos0)
    (hok : parseFromEntries content allEntries repos0 = .ok res) :
    ReposInv res := by
  unfold parseFromEntries finalizeRepos at hok
  have hinv : ReposInv ((extractRepositoriesFromRawJSON content.data).foldl addIfValid
      (allEntries.foldl genericExtractEntry
        (reParseStructured content allEntries repos0))) := by
    refine foldl_inv ?_ _ _ (foldl_inv ?_ _ _
      (reParseStructured_inv content allEntries repos0 h0))
    · intro b a hb
      exact addIfValid_inv b a hb
    · intro b a hb
      exact genericExtractEntry_inv b a hb
  split at hok
  · simp at hok
  · injection hok with h2
    rw [← h2]
    exact hinv

/-- Claim C4: every string in a successful `ParseOperatorIndex` result
begins with "http://", "https://" or "git@" (it passed the single URL
gate), and the result contains no duplicates. -/
theorem claim_C4 (content : String) (res : List String)
    (hok : ParseOperatorIndex content = .ok res) :
    (∀ r ∈ res, isValidRepositoryURL r = true) ∧ res.Nodup := by
  unfold ParseOperatorIndex at hok
  split at hok
  · simp at hok
  · split at hok
    · exact parseFromEntries_inv _ _ _ res reposInv_nil hok
    · split at hok
      · simp at hok
      · rename_i idx _
        exact parseFromEntries_inv _ _ _ res
          (structuredExtract_inv idx [] reposInv_nil) hok

/-- Witness for claim C4 on a concrete document with one repository. -/
theorem claim_C4_witness :
    (∀ r ∈ ([("https://github.com/a")] : List String),
      isValidRepositoryURL r = true) ∧
    ([("https://github.com/a")] : List String).Nodup :=
  claim_C4 docOK [("https://github.com/a")] (by rfl)

/-! Claim C1: the raw-text fallback and its index arithmetic. -/

set_option maxRecDepth 100000 in
/-- Evaluation at the failing input for claim C1: `docC1` carries a
well-formed `"repository": "https://..."` occurrence on its single line,
yet the raw-text fallback extracts nothing (its slice-start arithmetic
adds the quote offset twice, producing the non-http fragment "ository"),
and since no structural strategy reaches the nested object either,
`ParseOperatorIndex` fails with Validation instead of returning the URL. -/
theorem claim_C1_bug :
    containsSub docC1.data repoKeyColon.data = true ∧
    extractRepositoriesFromRawJSON docC1.data = [] ∧
    ParseOperatorIndex docC1 =
      .error (AnalyzerError.mk .validation msgNoRepos) := by
  refine ⟨by rfl, by rfl, by rfl⟩

/-! Claim C2: failure kind on malformed JSON. -/

set_option maxRecDepth 100000 in
/-- Counterexample to claim C2 as stated: `docC2` is malformed JSON with
no "repository": text anywhere, and `ParseOperatorIndex` returns the
Parsing failure (the raw JSON decode path), not Validation. -/
theorem claim_C2_counterexample :
    containsSub docC2.data repoKeyColon.data = false ∧
    ParseOperatorIndex docC2 =
      .error (AnalyzerError.mk .parsing msgParseFailed) := by
  refine ⟨by rfl, by rfl⟩

/-- Amended claim C2: when the NDJSON scan aborts (a brace-balanced chunk
fails to decode) and the whole document fails to decode as well — which is
the situation for malformed JSON with balanced braces — `ParseOperatorIndex`
returns the Parsing failure "failed to parse JSON" before any fallback can
run; the Validation failure "no valid repositories found" only arises on
documents that survive decoding yet yield no valid URL. -/
theorem claim_C2_amended (content : String)
    (h1 : (ndjsonScan [] 0 [] (splitLines content.data)).2 = false)
    (h2 : decodeOperatorIndex content.data = none) :
    ParseOperatorIndex content =
      .error (AnalyzerError.mk .parsing msgParseFailed) := by
  have hne : content.data.isEmpty = false := by
    cases hc : content.data with
    | nil =>
      rw [hc] at h1
      exact absurd h1 (by decide)
    | cons a l => simp
  unfold ParseOperatorIndex
  simp [hne, h1, h2]

/-- Witness for the amended claim C2 at the concrete malformed document. -/
theorem claim_C2_amended_witness :
    ParseOperatorIndex docC2 =
      .error (AnalyzerError.mk .parsing msgParseFailed) :=
  claim_C2_amended docC2 (by rfl) (by rfl)

/-! Claim C3: entries decoded before an NDJSON failure. -/

set_option maxRecDepth 100000 in
/-- Counterexample to claim C3 as stated: in `docC3` the first line
decodes into an object whose direct "repository" field holds a valid URL
before the scan fails on the second line, yet `ParseOperatorIndex` returns
a Parsing failure — the retained object never feeds the generic-entry
strategy and its URL is lost. -/
theorem claim_C3_counterexample :
    (ndjsonScan [] 0 [] (splitLines docC3.data)).1 =
      [[(("repository"), Json.str ("https://github.com/a/b"))]] ∧
    isValidRepositoryURL ("https://github.com/a/b") = true ∧
    ParseOperatorIndex docC3 =
      .error (AnalyzerError.mk .parsing msgParseFailed) := by
  refine ⟨by rfl, by rfl, by rfl⟩

/-- Amended claim C3: once the NDJSON scan fails, the result of
`ParseOperatorIndex` no longer depends on the entries decoded before the
failure — it equals `parseAfterScanFailure`, which is computed solely from
the whole-document decode (a Parsing failure when that decode fails, and
otherwise a result built from the single re-marshalled document object,
the raw-text fallback and the final emptiness check). -/
theorem claim_C3_amended (content : String)
    (h1 : (ndjsonScan [] 0 [] (splitLines content.data)).2 = false) :
    ParseOperatorIndex content = parseAfterScanFailure content := by
  unfold ParseOperatorIndex parseAfterScanFailure
  cases hE : content.data.isEmpty
  · simp [hE, h1]
  · simp [hE]

/-- Witness for the amended claim C3 at the concrete two-line document. -/
theorem claim_C3_amended_witness :
    ParseOperatorIndex docC3 = parseAfterScanFailure docC3 :=
  claim_C3_amended docC3 (by rfl)

end PregaAnalyzer
